import Mathlib

/-!
Shallow embedding of the sampling configuration subsystem of the
`solarwinds-apm` JavaScript agent: the gRPC settings sampler
(`packages/solarwinds-apm/src/sampling/grpc.ts`) and the core
local-override resolver (`CoreSampler.localSettings`).

Machine floats never participate in any proved property: the token-bucket
values decoded by `readDoubleLE` are represented by their 64-bit IEEE-754
bit patterns (reading a little-endian double is a bijection between 8-byte
payloads and bit patterns), and the retry timeouts — products of 500 by
powers of 3/2, all exactly representable as binary64 up to the 10-minute
cap — are modelled as rationals.
-/

namespace SolarWinds

/-! ### Collector address normalization (GrpcSampler constructor) -/

/-- Test of the JS regex written `:` `\x7b` `0-9` `\x7d` `+` `$` in the
constructor.  The braces are not a character class in a JS regular
expression: they are literal characters, and the `+` quantifies the closing
literal brace.  The regex therefore matches exactly the strings ending with
`:` `\x7b` `0` `-` `9` followed by one or more `\x7d` characters. -/
def testPortPattern (s : String) : Bool :=
  let r := s.data.reverse
  let braces := r.takeWhile (fun c => c == '\x7d')
  let rest := r.drop braces.length
  !braces.isEmpty && rest.take 5 == ['9', '-', '0', '\x7b', ':']

/-- Test of the JS regex `^https?:`. -/
def testSchemePattern (s : String) : Bool :=
  "http:".data.isPrefixOf s.data || "https:".data.isPrefixOf s.data

/-- Collector string normalization performed by the GrpcSampler constructor:
append `:443` when the port regex does not match, then prepend `https://`
when the scheme regex does not match. -/
def normalizeCollector (c : String) : String :=
  let c1 := if !testPortPattern c then c ++ ":443" else c
  if !testSchemePattern c1 then "https://" ++ c1 else c1

/-- Authority (host and port) component of an `http://` or `https://` URL
string, up to the first `/`, `?` or `#`. -/
def urlAuthority (s : String) : Option (List Char) :=
  let delim := fun (c : Char) => c != '/' && c != '?' && c != '#'
  if "https://".data.isPrefixOf s.data then
    some ((s.data.drop 8).takeWhile delim)
  else if "http://".data.isPrefixOf s.data then
    some ((s.data.drop 7).takeWhile delim)
  else none

/-- Numeric value of a list of decimal digit characters. -/
def digitsVal (cs : List Char) : Nat :=
  cs.foldl (fun a c => a * 10 + (c.toNat - 48)) 0

/-- Port validation of the WHATWG URL parser, as exercised by `new URL` on a
normalized collector string: everything after the first `:` of the authority
is the port, which must be empty or decimal digits of value below 65536. -/
def urlPortValid (auth : List Char) : Bool :=
  match auth.dropWhile (fun c => c != ':') with
  | [] => true
  | _ :: port => port.isEmpty || (port.all Char.isDigit && digitsVal port < 65536)

/-- Validity of a normalized collector URL string: an `http(s)://` scheme, a
non-empty host and a valid port.  `new URL` throws exactly on the invalid
ones, sending the constructor into its catch branch. -/
def urlValid (s : String) : Bool :=
  match urlAuthority s with
  | none => false
  | some auth =>
    let host := auth.takeWhile (fun c => c != ':')
    !host.isEmpty && urlPortValid auth

/-- Request target the GrpcSampler ends up with: the normalized collector
string when it is a valid URL, otherwise the poisoned placeholder installed
by the constructor catch branch (whose client always rejects with an
Invalid collector error). -/
def collectorAddress (c : String) : String :=
  let n := normalizeCollector c
  if urlValid n then n else "https://collector.invalid:443"

/-! ### Settings data model -/

namespace Flags

/-- Modelled from the spec: the `Flags` bitmask of the
`@solarwinds-apm/sampling` package, whose source is not provided.  The spec
says the mask always includes a base OK bit, so OK is a genuine bit; the
exact numeric values are not given and distinct bits are chosen. -/
def OK : Nat := 0x1

/-- Modelled from the spec: the OVERRIDE bit of the `Flags` bitmask. -/
def OVERRIDE : Nat := 0x2

/-- Modelled from the spec: the SAMPLE_START bit of the `Flags` bitmask. -/
def SAMPLE_START : Nat := 0x4

/-- Modelled from the spec: the SAMPLE_THROUGH_ALWAYS bit of the `Flags`
bitmask. -/
def SAMPLE_THROUGH_ALWAYS : Nat := 0x10

/-- Modelled from the spec: the TRIGGERED_TRACE bit of the `Flags`
bitmask. -/
def TRIGGERED_TRACE : Nat := 0x20

end Flags

/-- Map of flag names to their value (`FLAGS_NAMES` in grpc.ts); an
unrecognized name maps to nothing. -/
def FLAGS_NAMES (name : String) : Option Nat :=
  if name = "OVERRIDE" then some Flags.OVERRIDE
  else if name = "SAMPLE_START" then some Flags.SAMPLE_START
  else if name = "SAMPLE_THROUGH_ALWAYS" then some Flags.SAMPLE_THROUGH_ALWAYS
  else if name = "TRIGGER_TRACE" then some Flags.TRIGGERED_TRACE
  else none

/-- The three token bucket types of the settings model. -/
inductive BucketType
  | DEFAULT
  | TRIGGER_RELAXED
  | TRIGGER_STRICT
deriving DecidableEq, Repr

/-- Token-bucket parameters.  The two doubles are represented by their
64-bit little-endian IEEE-754 bit patterns; the default value `0` is the
bit pattern of `0.0`. -/
structure BucketSettings where
  capacity : Nat := 0
  rate : Nat := 0
deriving DecidableEq, Repr

/-- The `keyof BucketSettings` argument of parseBucketSetting. -/
inductive BucketKey
  | capacity
  | rate
deriving DecidableEq, Repr

/-- Assignment `bucket[key] = parsed`. -/
def BucketSettings.assign (b : BucketSettings) : BucketKey → Nat → BucketSettings
  | .capacity, v => { b with capacity := v }
  | .rate, v => { b with rate := v }

/-- The `settings.buckets` record, one optional entry per bucket type. -/
structure Buckets where
  default : Option BucketSettings := none
  triggerRelaxed : Option BucketSettings := none
  triggerStrict : Option BucketSettings := none
deriving DecidableEq, Repr

/-- Lookup `settings.buckets[type]`. -/
def Buckets.get (b : Buckets) : BucketType → Option BucketSettings
  | .DEFAULT => b.default
  | .TRIGGER_RELAXED => b.triggerRelaxed
  | .TRIGGER_STRICT => b.triggerStrict

/-- Assignment `settings.buckets[type] = bucket`. -/
def Buckets.put (b : Buckets) : BucketType → BucketSettings → Buckets
  | .DEFAULT, v => { b with default := some v }
  | .TRIGGER_RELAXED, v => { b with triggerRelaxed := some v }
  | .TRIGGER_STRICT, v => { b with triggerStrict := some v }

/-- The internal `Settings` value produced by the codec. -/
structure Settings where
  sampleRate : Int
  flags : Nat
  buckets : Buckets
  ttl : Int
  signatureKey : Option (List Nat) := none
deriving DecidableEq, Repr

/-! ### Wire codec (parseSettings, parseBucketSetting) -/

/-- Little-endian 64-bit value of the first 8 bytes of a payload (bytes are
reduced mod 256 as in a `Uint8Array`). -/
def le64 (bs : List Nat) : Nat :=
  (bs.take 8).foldr (fun b acc => acc * 256 + b % 256) 0

/-- Node `Buffer.readDoubleLE()` at offset 0: throws a range error when the
buffer holds fewer than 8 bytes, otherwise reads the first 8 bytes as a
little-endian double, represented here by its bit pattern. -/
def readDoubleLE (value : List Nat) : Except String Nat :=
  if value.length < 8 then Except.error "ERR_OUT_OF_RANGE"
  else Except.ok (le64 value)

/-- parseBucketSetting from grpc.ts: look the bucket up, defaulting to
capacity 0 and rate 0, read the payload as a double inside a try/catch, and
on success set the single field and store the bucket; on a range error
return with the settings untouched. -/
def parseBucketSetting (s : Settings) (type : BucketType) (key : BucketKey)
    (value : List Nat) : Settings :=
  let bucket := (s.buckets.get type).getD {}
  match readDoubleLE value with
  | Except.ok parsed => { s with buckets := s.buckets.put type (bucket.assign key parsed) }
  | Except.error _ => s

/-- parseBucketSetting with the try/catch made explicit in the `Except`
monad: the range error that readDoubleLE can throw is caught and turned
into the unchanged settings, so no error escapes. -/
def parseBucketSettingE (s : Settings) (type : BucketType) (key : BucketKey)
    (value : List Nat) : Except String Settings :=
  let body : Except String Settings := do
    let parsed ← readDoubleLE value
    pure { s with buckets := s.buckets.put type ((((s.buckets.get type).getD {}).assign key parsed)) }
  match body with
  | Except.ok r => Except.ok r
  | Except.error _ => Except.ok s

/-- Recognized argument key (grpc.ts constant). -/
def BUCKET_CAPACITY : String := "BucketCapacity"

/-- Recognized argument key (grpc.ts constant). -/
def BUCKET_RATE : String := "BucketRate"

/-- Recognized argument key (grpc.ts constant). -/
def TRIGGER_RELAXED_BUCKET_CAPACITY : String := "TriggerRelaxedBucketCapacity"

/-- Recognized argument key (grpc.ts constant). -/
def TRIGGER_RELAXED_BUCKET_RATE : String := "TriggerRelaxedBucketRate"

/-- Recognized argument key (grpc.ts constant). -/
def TRIGGER_STRICT_BUCKET_CAPACITY : String := "TriggerStrictBucketCapacity"

/-- Recognized argument key (grpc.ts constant). -/
def TRIGGER_STRICT_BUCKET_RATE : String := "TriggerStrictBucketRate"

/-- Recognized argument key (grpc.ts constant). -/
def SIGNATURE_KEY : String := "SignatureKey"

/-- The switch over one entry of the arguments map in parseSettings. -/
def applyArgument (s : Settings) (key : String) (value : List Nat) : Settings :=
  if key = BUCKET_CAPACITY then parseBucketSetting s .DEFAULT .capacity value
  else if key = BUCKET_RATE then parseBucketSetting s .DEFAULT .rate value
  else if key = TRIGGER_RELAXED_BUCKET_CAPACITY then
    parseBucketSetting s .TRIGGER_RELAXED .capacity value
  else if key = TRIGGER_RELAXED_BUCKET_RATE then
    parseBucketSetting s .TRIGGER_RELAXED .rate value
  else if key = TRIGGER_STRICT_BUCKET_CAPACITY then
    parseBucketSetting s .TRIGGER_STRICT .capacity value
  else if key = TRIGGER_STRICT_BUCKET_RATE then
    parseBucketSetting s .TRIGGER_STRICT .rate value
  else if key = SIGNATURE_KEY then { s with signatureKey := some value }
  else s

/-- The switch over one entry of the arguments map, in the `Except` monad. -/
def applyArgumentE (s : Settings) (key : String) (value : List Nat) :
    Except String Settings :=
  if key = BUCKET_CAPACITY then parseBucketSettingE s .DEFAULT .capacity value
  else if key = BUCKET_RATE then parseBucketSettingE s .DEFAULT .rate value
  else if key = TRIGGER_RELAXED_BUCKET_CAPACITY then
    parseBucketSettingE s .TRIGGER_RELAXED .capacity value
  else if key = TRIGGER_RELAXED_BUCKET_RATE then
    parseBucketSettingE s .TRIGGER_RELAXED .rate value
  else if key = TRIGGER_STRICT_BUCKET_CAPACITY then
    parseBucketSettingE s .TRIGGER_STRICT .capacity value
  else if key = TRIGGER_STRICT_BUCKET_RATE then
    parseBucketSettingE s .TRIGGER_STRICT .rate value
  else if key = SIGNATURE_KEY then Except.ok { s with signatureKey := some value }
  else Except.ok s

/-- Whether an argument key is one of the six bucket capacity/rate keys. -/
def isBucketKey (k : String) : Bool :=
  k = BUCKET_CAPACITY || k = BUCKET_RATE ||
    k = TRIGGER_RELAXED_BUCKET_CAPACITY || k = TRIGGER_RELAXED_BUCKET_RATE ||
    k = TRIGGER_STRICT_BUCKET_CAPACITY || k = TRIGGER_STRICT_BUCKET_RATE

/-- Replacement character emitted by the lenient text decoder. -/
def replChar : Char := '�'

/-- Whether a byte is a UTF-8 continuation byte. -/
def isCont (b : Nat) : Bool := 0x80 ≤ b % 256 && b % 256 < 0xC0

/-- Lenient UTF-8 decoding performed by `new TextDecoder` with fatal set to
false, as used on the raw flags bytes: well-formed sequences decode to their
code point, any malformed byte becomes U+FFFD and decoding continues at the
offending byte; the decoder never throws.  The fuel argument only bounds the
recursion: every step consumes at least one byte and burns exactly one unit
of fuel, so with fuel equal to the input length the zero-fuel case is never
reached. -/
def utf8CharsAux : Nat → List Nat → List Char
  | 0, _ => []
  | _ + 1, [] => []
  | fuel + 1, b0 :: rest =>
    let b := b0 % 256
    if b < 0x80 then Char.ofNat b :: utf8CharsAux fuel rest
    else if b < 0xC2 then replChar :: utf8CharsAux fuel rest
    else if b < 0xE0 then
      match rest with
      | [] => [replChar]
      | c1 :: rest1 =>
        if isCont c1 then
          Char.ofNat ((b - 0xC0) * 0x40 + (c1 % 256 - 0x80)) :: utf8CharsAux fuel rest1
        else replChar :: utf8CharsAux fuel (c1 :: rest1)
    else if b < 0xF0 then
      match rest with
      | [] => [replChar]
      | c1 :: rest1 =>
        let lo := if b = 0xE0 then 0xA0 else 0x80
        let hi := if b = 0xED then 0xA0 else 0xC0
        if lo ≤ c1 % 256 && c1 % 256 < hi then
          match rest1 with
          | [] => [replChar]
          | c2 :: rest2 =>
            if isCont c2 then
              Char.ofNat ((b - 0xE0) * 0x1000 + (c1 % 256 - 0x80) * 0x40 + (c2 % 256 - 0x80)) ::
                utf8CharsAux fuel rest2
            else replChar :: utf8CharsAux fuel (c2 :: rest2)
        else replChar :: utf8CharsAux fuel (c1 :: rest1)
    else if b < 0xF5 then
      match rest with
      | [] => [replChar]
      | c1 :: rest1 =>
        let lo := if b = 0xF0 then 0x90 else 0x80
        let hi := if b = 0xF4 then 0x90 else 0xC0
        if lo ≤ c1 % 256 && c1 % 256 < hi then
          match rest1 with
          | [] => [replChar]
          | c2 :: rest2 =>
            if isCont c2 then
              match rest2 with
              | [] => [replChar]
              | c3 :: rest3 =>
                if isCont c3 then
                  Char.ofNat ((b - 0xF0) * 0x40000 + (c1 % 256 - 0x80) * 0x1000 +
                      (c2 % 256 - 0x80) * 0x40 + (c3 % 256 - 0x80)) ::
                    utf8CharsAux fuel rest3
                else replChar :: utf8CharsAux fuel (c3 :: rest3)
            else replChar :: utf8CharsAux fuel (c2 :: rest2)
        else replChar :: utf8CharsAux fuel (c1 :: rest1)
    else replChar :: utf8CharsAux fuel rest

/-- Decoded text of the raw flags bytes. -/
def utf8Decode (bs : List Nat) : String := String.mk (utf8CharsAux bs.length bs)

/-- One iteration of the flags loop in parseSettings:
`settings.flags |= flagValue` when the name is recognized. -/
def applyFlag (flags : Nat) (name : String) : Nat :=
  match FLAGS_NAMES name with
  | some v => flags ||| v
  | none => flags

/-- The raw `collector.IOboeSetting` message as far as parseSettings reads
it: the sample rate value, raw flags bytes, the arguments map entries in
iteration order, and the int64 TTL (absent fields are `none`). -/
structure OboeSetting where
  value : Option Int := none
  flags : Option (List Nat) := none
  arguments : List (String × List Nat) := []
  ttl : Option Int := none

/-- JS falsiness of the int64 `ttl` field tested by `!unparsed.ttl`: absent
or zero. -/
def ttlFalsy : Option Int → Bool
  | none => true
  | some t => t == 0

/-- The settings value parseSettings has built right before the arguments
loop: initialized with the sample rate value, the OK flag, empty buckets
and the TTL, then with the flags accumulated over the comma-split decoded
flag names. -/
def settingsBeforeArguments (unparsed : OboeSetting) : Settings :=
  let s : Settings :=
    { sampleRate := unparsed.value.getD 0
      flags := Flags.OK
      buckets := {}
      ttl := unparsed.ttl.getD 0 }
  let flagNames := utf8Decode (unparsed.flags.getD [])
  { s with flags := (flagNames.splitOn ",").foldl applyFlag s.flags }

/-- parseSettings from grpc.ts: reject a falsy TTL outright, then build the
settings with the OK flag, fold the comma-split decoded flag names, and fold
the argument entries. -/
def parseSettings (unparsed : OboeSetting) : Option Settings :=
  if ttlFalsy unparsed.ttl then none
  else
    some (unparsed.arguments.foldl (fun s kv => applyArgument s kv.1 kv.2)
      (settingsBeforeArguments unparsed))

/-- parseSettings with the single throwing operation threaded through the
`Except` monad, to state that no exception reaches the caller. -/
def parseSettingsE (unparsed : OboeSetting) : Except String (Option Settings) :=
  if ttlFalsy unparsed.ttl then Except.ok none
  else do
    let s ← unparsed.arguments.foldlM (fun s kv => applyArgumentE s kv.1 kv.2)
      (settingsBeforeArguments unparsed)
    pure (some s)

/-! ### Settings sync loop (timing constants, retry backoff, readiness) -/

/-- Request deadline constant of grpc.ts, in milliseconds. -/
def REQUEST_TIMEOUT : ℚ := 10 * 1000

/-- Initial retry timeout constant of grpc.ts, in milliseconds. -/
def RETRY_MIN_TIMEOUT : ℚ := 500

/-- Retry timeout cap constant of grpc.ts, in milliseconds. -/
def RETRY_MAX_TIMEOUT : ℚ := 10 * 60 * 1000

/-- Backoff multiplier constant of grpc.ts. -/
def MULTIPLIER : ℚ := 3 / 2

/-- The next retry timeout computed inside `retry()`:
`Math.min(retryTimeout * MULTIPLIER, RETRY_MAX_TIMEOUT)`. -/
def nextRetryTimeout (t : ℚ) : ℚ := min (t * MULTIPLIER) RETRY_MAX_TIMEOUT

/-- The delay until the next fetch scheduled after a successful decode:
`Math.max(0, parsed.ttl * 1000 - REQUEST_TIMEOUT * MULTIPLIER)`. -/
def nextRequestDelay (ttl : Int) : ℚ :=
  max 0 ((ttl : ℚ) * 1000 - REQUEST_TIMEOUT * MULTIPLIER)

/-- Outcome of one settings fetch attempt, one constructor per branch of the
then/catch handlers in the loop of GrpcSampler. -/
inductive Outcome
  | emptyResponse
  | tryLater
  | limitExceeded
  | errorStatus
  | invalidSettings
  | success (ttl : Int)
  | transportError
deriving DecidableEq, Repr

/-- Whether the branch handling an outcome calls `retry()` — every branch
except the success branch does. -/
def Outcome.isRetry : Outcome → Bool
  | .emptyResponse => true
  | .tryLater => true
  | .limitExceeded => true
  | .errorStatus => true
  | .invalidSettings => true
  | .success _ => false
  | .transportError => true

/-- The `retryTimeout` argument the loop passes to its next iteration after
processing an outcome: every retrying branch calls `retry()`, which passes
`nextRetryTimeout`; the success branch schedules the loop with the default
argument `RETRY_MIN_TIMEOUT`. -/
def loopStep (t : ℚ) : Outcome → ℚ
  | .emptyResponse => nextRetryTimeout t
  | .tryLater => nextRetryTimeout t
  | .limitExceeded => nextRetryTimeout t
  | .errorStatus => nextRetryTimeout t
  | .invalidSettings => nextRetryTimeout t
  | .success _ => RETRY_MIN_TIMEOUT
  | .transportError => nextRetryTimeout t

/-- The `retryTimeout` state of the loop after a sequence of attempt
outcomes, starting from the default argument of the first call. -/
def stateAfter (os : List Outcome) : ℚ := os.foldl loopStep RETRY_MIN_TIMEOUT

/-- Number of calls to the stored `resolve` of the ready promise performed by
the branch handling each outcome: every branch performs exactly one, either
inside `retry()` or directly after `updateSettings`. -/
def readyCalls : Outcome → Nat
  | .emptyResponse => 1
  | .tryLater => 1
  | .limitExceeded => 1
  | .errorStatus => 1
  | .invalidSettings => 1
  | .success _ => 1
  | .transportError => 1

/-- Effect of a number of `resolve` calls on a JS promise: given whether the
promise has already settled, return the new settled state and how many times
the promise actually fired (settling is one-shot, later calls are no-ops). -/
def applyResolves (settled : Bool) (calls : Nat) : Bool × Nat :=
  if settled then (true, 0)
  else if calls = 0 then (false, 0)
  else (true, 1)

/-- Number of times the ready promise fires while the loop processes a
sequence of outcomes, starting from a given settled state. -/
def fireCountFrom : List Outcome → Bool → Nat
  | [], _ => 0
  | o :: os, settled =>
    let r := applyResolves settled (readyCalls o)
    r.2 + fireCountFrom os r.1

/-- Number of times the ready promise fires over a whole outcome sequence:
the promise starts pending when the sampler is constructed. -/
def fireCount (os : List Outcome) : Nat := fireCountFrom os false

/-! ### Local override resolver (CoreSampler.localSettings) -/

/-- Span kinds of the OpenTelemetry API. -/
inductive SpanKind
  | INTERNAL
  | SERVER
  | CLIENT
  | PRODUCER
  | CONSUMER
deriving DecidableEq, Repr

/-- Reverse enum lookup `SpanKind[spanKind]`. -/
def SpanKind.name : SpanKind → String
  | .INTERNAL => "INTERNAL"
  | .SERVER => "SERVER"
  | .CLIENT => "CLIENT"
  | .PRODUCER => "PRODUCER"
  | .CONSUMER => "CONSUMER"

/-- The tracing mode override values. -/
inductive TracingMode
  | ALWAYS
  | NEVER
deriving DecidableEq, Repr

/-- LocalSettings returned per sampling request. -/
structure LocalSettings where
  tracingMode : Option TracingMode := none
  triggerMode : Bool
deriving DecidableEq, Repr

/-- One user-configured transaction setting: a boolean effect and a matcher
predicate over the request identifier. -/
structure TransactionSetting where
  tracing : Bool
  matcher : String → Bool

/-- The configuration slice CoreSampler keeps: the optional boolean tracing
mode, the trigger-trace enable flag, and the optional ordered
transaction-setting list. -/
structure CoreSamplerConfig where
  tracingMode : Option Bool := none
  triggerTraceEnabled : Bool
  transactionSettings : Option (List TransactionSetting) := none

/-- The span attributes the resolver reads: http.scheme, net.host.name and
http.target, each already converted to a string when present. -/
structure SpanAttributes where
  httpScheme : Option String := none
  netHostName : Option String := none
  httpTarget : Option String := none

/-- JS truthiness of an optional string: present and non-empty. -/
def truthy : Option String → Bool
  | none => false
  | some s => !s.isEmpty

/-- The request identifier computed by CoreSampler.localSettings: the URL
form when the three attributes are all truthy, the kind and name form
otherwise. -/
def requestIdentifier (spanKind : SpanKind) (spanName : String)
    (attrs : SpanAttributes) : String :=
  if truthy attrs.httpScheme && truthy attrs.netHostName && truthy attrs.httpTarget then
    attrs.httpScheme.getD "" ++ "://" ++ attrs.netHostName.getD "" ++ attrs.httpTarget.getD ""
  else
    spanKind.name ++ ":" ++ spanName

/-- The for-loop with break over the transaction settings: the first entry
whose matcher accepts the identifier overrides the tracing mode and stops
the scan. -/
def applyTransactionSettings (s : LocalSettings) (identifier : String) :
    List TransactionSetting → LocalSettings
  | [] => s
  | t :: rest =>
    if t.matcher identifier then
      { s with tracingMode := some (if t.tracing then TracingMode.ALWAYS else TracingMode.NEVER) }
    else applyTransactionSettings s identifier rest

/-- CoreSampler.localSettings: base settings from configuration, returned
directly when no transaction-setting list is configured, otherwise run
through the first-match scan. -/
def localSettings (cfg : CoreSamplerConfig) (spanName : String)
    (spanKind : SpanKind) (attrs : SpanAttributes) : LocalSettings :=
  let s : LocalSettings :=
    { tracingMode := cfg.tracingMode.map (fun b => if b then TracingMode.ALWAYS else TracingMode.NEVER)
      triggerMode := cfg.triggerTraceEnabled }
  match cfg.transactionSettings with
  | none => s
  | some ts => applyTransactionSettings s (requestIdentifier spanKind spanName attrs) ts

/-- The request identifier exactly as claim C6 words it: the URL form
whenever the three attributes are all present, regardless of emptiness.
Stated only to compare the claim against the code. -/
def claimIdentifier (spanKind : SpanKind) (spanName : String)
    (attrs : SpanAttributes) : String :=
  if attrs.httpScheme.isSome && attrs.netHostName.isSome && attrs.httpTarget.isSome then
    attrs.httpScheme.getD "" ++ "://" ++ attrs.netHostName.getD "" ++ attrs.httpTarget.getD ""
  else
    spanKind.name ++ ":" ++ spanName

/-- The resolver exactly as claim C6 words it: compute claimIdentifier,
apply the first transaction setting in list order whose matcher accepts it,
override the tracing mode by the entry effect, keep the base trigger mode,
return the base when nothing matches. -/
def claimLocalSettings (cfg : CoreSamplerConfig) (spanName : String)
    (spanKind : SpanKind) (attrs : SpanAttributes) : LocalSettings :=
  let base : LocalSettings :=
    { tracingMode := cfg.tracingMode.map (fun b => if b then TracingMode.ALWAYS else TracingMode.NEVER)
      triggerMode := cfg.triggerTraceEnabled }
  match cfg.transactionSettings with
  | none => base
  | some ts =>
    match ts.find? (fun t => t.matcher (claimIdentifier spanKind spanName attrs)) with
    | some t =>
      { base with tracingMode := some (if t.tracing then TracingMode.ALWAYS else TracingMode.NEVER) }
    | none => base

/-- The resolver as the amended claim words it: identical to
claimLocalSettings except that the URL identifier additionally requires the
three attributes to be non-empty (JS truthiness), i.e. it uses
requestIdentifier. -/
def amendedLocalSettings (cfg : CoreSamplerConfig) (spanName : String)
    (spanKind : SpanKind) (attrs : SpanAttributes) : LocalSettings :=
  let base : LocalSettings :=
    { tracingMode := cfg.tracingMode.map (fun b => if b then TracingMode.ALWAYS else TracingMode.NEVER)
      triggerMode := cfg.triggerTraceEnabled }
  match cfg.transactionSettings with
  | none => base
  | some ts =>
    match ts.find? (fun t => t.matcher (requestIdentifier spanKind spanName attrs)) with
    | some t =>
      { base with tracingMode := some (if t.tracing then TracingMode.ALWAYS else TracingMode.NEVER) }
    | none => base

/-! ### Helper lemmas -/

theorem applyFlag_eq (a : Nat) (n : String) :
    applyFlag a n = a ||| (FLAGS_NAMES n).getD 0 := by
  unfold applyFlag
  cases h : FLAGS_NAMES n <;> simp

theorem foldl_applyFlag_eq (l : List String) (a : Nat) :
    l.foldl applyFlag a = a ||| l.foldl applyFlag 0 := by
  induction l generalizing a with
  | nil => simp
  | cons n t ih =>
    simp only [List.foldl_cons]
    rw [ih (applyFlag a n), ih (applyFlag 0 n), applyFlag_eq, applyFlag_eq,
      Nat.lor_assoc]
    simp

theorem foldl_applyFlag_mem (l : List String) (n : String) (h : n ∈ l) :
    (FLAGS_NAMES n).getD 0 ||| l.foldl applyFlag 0 = l.foldl applyFlag 0 := by
  induction l with
  | nil => cases h
  | cons m t ih =>
    simp only [List.foldl_cons]
    rw [foldl_applyFlag_eq t (applyFlag 0 m), applyFlag_eq]
    rcases List.mem_cons.mp h with rfl | hmem
    · rw [← Nat.lor_assoc, ← Nat.lor_assoc]
      simp
    · rw [← Nat.lor_assoc, Nat.lor_comm ((FLAGS_NAMES n).getD 0) (0 ||| (FLAGS_NAMES m).getD 0),
        Nat.lor_assoc, ih hmem]

theorem parseBucketSetting_flags (s : Settings) (t : BucketType) (k : BucketKey)
    (v : List Nat) : (parseBucketSetting s t k v).flags = s.flags := by
  unfold parseBucketSetting
  cases readDoubleLE v <;> rfl

theorem applyArgument_flags (s : Settings) (k : String) (v : List Nat) :
    (applyArgument s k v).flags = s.flags := by
  unfold applyArgument
  split_ifs <;> first | rfl | apply parseBucketSetting_flags

theorem foldl_applyArgument_flags (args : List (String × List Nat)) (s : Settings) :
    (args.foldl (fun s kv => applyArgument s kv.1 kv.2) s).flags = s.flags := by
  induction args generalizing s with
  | nil => rfl
  | cons kv t ih => rw [List.foldl_cons, ih, applyArgument_flags]

theorem parseBucketSetting_short (s : Settings) (t : BucketType) (k : BucketKey)
    (v : List Nat) (h : v.length < 8) : parseBucketSetting s t k v = s := by
  unfold parseBucketSetting readDoubleLE
  simp [h]

theorem applyArgument_bucket_short (s : Settings) (k : String) (v : List Nat)
    (hk : isBucketKey k = true) (hv : v.length < 8) : applyArgument s k v = s := by
  unfold isBucketKey at hk
  unfold applyArgument
  simp only [Bool.or_eq_true, decide_eq_true_eq] at hk
  rcases hk with ((((hk | hk) | hk) | hk) | hk) | hk <;>
    simp [hk, parseBucketSetting_short _ _ _ _ hv, BUCKET_CAPACITY, BUCKET_RATE,
      TRIGGER_RELAXED_BUCKET_CAPACITY, TRIGGER_RELAXED_BUCKET_RATE,
      TRIGGER_STRICT_BUCKET_CAPACITY, TRIGGER_STRICT_BUCKET_RATE]

theorem parseBucketSettingE_ok (s : Settings) (t : BucketType) (k : BucketKey)
    (v : List Nat) : parseBucketSettingE s t k v = Except.ok (parseBucketSetting s t k v) := by
  unfold parseBucketSettingE parseBucketSetting
  cases h : readDoubleLE v <;> simp [h, Bind.bind, Except.bind, pure, Except.pure]

theorem applyArgumentE_ok (s : Settings) (k : String) (v : List Nat) :
    applyArgumentE s k v = Except.ok (applyArgument s k v) := by
  unfold applyArgumentE applyArgument
  split_ifs <;> first | rfl | apply parseBucketSettingE_ok

theorem foldlM_except_ok {α β : Type} (f : β → α → Except String β) (g : β → α → β)
    (hfg : ∀ b a, f b a = Except.ok (g b a)) (l : List α) (b : β) :
    List.foldlM f b l = Except.ok (List.foldl g b l) := by
  induction l generalizing b with
  | nil => rfl
  | cons a t ih =>
    rw [List.foldlM_cons, List.foldl_cons, hfg]
    simpa [Bind.bind, Except.bind] using ih (g b a)

theorem fireCountFrom_settled (os : List Outcome) : fireCountFrom os true = 0 := by
  induction os with
  | nil => rfl
  | cons o t ih => simp [fireCountFrom, applyResolves, ih]

theorem readyCalls_eq_one (o : Outcome) : readyCalls o = 1 := by
  cases o <;> rfl

theorem retry_min_le_max : RETRY_MIN_TIMEOUT ≤ RETRY_MAX_TIMEOUT := by
  norm_num [RETRY_MIN_TIMEOUT, RETRY_MAX_TIMEOUT]

theorem nextRetryTimeout_bounds (t : ℚ) (h1 : RETRY_MIN_TIMEOUT ≤ t)
    (h2 : t ≤ RETRY_MAX_TIMEOUT) :
    t ≤ nextRetryTimeout t ∧ RETRY_MIN_TIMEOUT ≤ nextRetryTimeout t ∧
      nextRetryTimeout t ≤ RETRY_MAX_TIMEOUT := by
  unfold nextRetryTimeout MULTIPLIER at *
  unfold RETRY_MIN_TIMEOUT RETRY_MAX_TIMEOUT at *
  refine ⟨le_min (by linarith) h2, le_min (by linarith) (by linarith), min_le_right _ _⟩

theorem foldl_loopStep_bounds (os : List Outcome) (t : ℚ)
    (h1 : RETRY_MIN_TIMEOUT ≤ t) (h2 : t ≤ RETRY_MAX_TIMEOUT) :
    RETRY_MIN_TIMEOUT ≤ os.foldl loopStep t ∧ os.foldl loopStep t ≤ RETRY_MAX_TIMEOUT := by
  induction os generalizing t with
  | nil => exact ⟨h1, h2⟩
  | cons o rest ih =>
    rw [List.foldl_cons]
    cases o with
    | success ttl => exact ih RETRY_MIN_TIMEOUT (le_refl _) retry_min_le_max
    | emptyResponse =>
      obtain ⟨_, hb, hc⟩ := nextRetryTimeout_bounds t h1 h2
      exact ih _ hb hc
    | tryLater =>
      obtain ⟨_, hb, hc⟩ := nextRetryTimeout_bounds t h1 h2
      exact ih _ hb hc
    | limitExceeded =>
      obtain ⟨_, hb, hc⟩ := nextRetryTimeout_bounds t h1 h2
      exact ih _ hb hc
    | errorStatus =>
      obtain ⟨_, hb, hc⟩ := nextRetryTimeout_bounds t h1 h2
      exact ih _ hb hc
    | invalidSettings =>
      obtain ⟨_, hb, hc⟩ := nextRetryTimeout_bounds t h1 h2
      exact ih _ hb hc
    | transportError =>
      obtain ⟨_, hb, hc⟩ := nextRetryTimeout_bounds t h1 h2
      exact ih _ hb hc

theorem applyTransactionSettings_find (ts : List TransactionSetting)
    (s : LocalSettings) (identifier : String) :
    applyTransactionSettings s identifier ts =
      match ts.find? (fun t => t.matcher identifier) with
      | some t =>
        { s with tracingMode := some (if t.tracing then TracingMode.ALWAYS else TracingMode.NEVER) }
      | none => s := by
  induction ts with
  | nil => rfl
  | cons t rest ih =>
    unfold applyTransactionSettings
    rw [List.find?_cons]
    cases h : t.matcher identifier <;> simp [h, ih]

theorem Buckets.get_put (b : Buckets) (t : BucketType) (x : BucketSettings) :
    (b.put t x).get t = some x := by
  cases t <;> rfl

theorem settingsBeforeArguments_flags (u : OboeSetting) :
    (settingsBeforeArguments u).flags =
      List.foldl applyFlag Flags.OK ((utf8Decode (u.flags.getD [])).splitOn ",") := rfl

theorem settingsBeforeArguments_args (u : OboeSetting) (x : List (String × List Nat)) :
    settingsBeforeArguments { u with arguments := x } = settingsBeforeArguments u := rfl

theorem applyTransactionSettings_triggerMode (ts : List TransactionSetting)
    (s : LocalSettings) (identifier : String) :
    (applyTransactionSettings s identifier ts).triggerMode = s.triggerMode := by
  induction ts with
  | nil => rfl
  | cons t rest ih =>
    unfold applyTransactionSettings
    cases t.matcher identifier <;> simp [ih]

/-! ### Claim theorems -/

/-- Claim C1: for every configured collector address string, the resolved
request target defaults the scheme to https and the port to 443 when they
are omitted, and leaves an explicitly given port and scheme unchanged.  The
schemeless and portless example does resolve as claimed (first conjunct),
but an explicitly given port is not left unchanged: the port regex never
matches a numeric port, so `:443` is appended after it, and the resulting
URL is invalid, poisoning the sampler with the placeholder address (second
to fourth conjuncts evaluate the code on the failing input). -/
theorem claim_C1_collector_port :
    collectorAddress "collector.example.com" = "https://collector.example.com:443" ∧
    normalizeCollector "collector.example.com:8080" = "https://collector.example.com:8080:443" ∧
    collectorAddress "collector.example.com:8080" = "https://collector.invalid:443" ∧
    normalizeCollector "https://collector.example.com:8080" =
      "https://collector.example.com:8080:443" := by
  refine ⟨by decide, by decide, by decide, by decide⟩

/-- Claim C2: a raw settings message that carries no TTL field produces no
settings at all; parseSettings rejects it before populating anything. -/
theorem claim_C2_no_ttl_rejected :
    ∀ u : OboeSetting, u.ttl = none → parseSettings u = none := by
  intro u h
  simp [parseSettings, ttlFalsy, h]

theorem claim_C2_no_ttl_rejected_witness :
    parseSettings { ttl := none } = none :=
  claim_C2_no_ttl_rejected { ttl := none } rfl

/-- Claim C10: a settings message whose TTL field is present but equal to
zero is rejected by parseSettings exactly like a message with no TTL at all,
because the validity test is on JS falsiness of the ttl value. -/
theorem claim_C10_zero_ttl_rejected :
    ∀ u : OboeSetting, u.ttl = some 0 → parseSettings u = none := by
  intro u h
  simp [parseSettings, ttlFalsy, h]

theorem claim_C10_zero_ttl_rejected_witness :
    parseSettings { ttl := some 0 } = none :=
  claim_C10_zero_ttl_rejected { ttl := some 0 } rfl

/-- Claim C3, counterexample: the claim says a bucket payload that is not
exactly 8 bytes long is omitted, but a 9-byte payload is parsed: its first
8 bytes are read as the little-endian double, so the bucket capacity is set
rather than omitted. -/
theorem claim_C3_counterexample :
    ([1, 0, 0, 0, 0, 0, 0, 0, 99] : List Nat).length ≠ 8 ∧
    (parseSettings
          { ttl := some 60, arguments := [("BucketCapacity", [1, 0, 0, 0, 0, 0, 0, 0, 99])] }).map
        (fun s => s.buckets.get BucketType.DEFAULT) =
      some (some { capacity := 1, rate := 0 }) ∧
    some (some ({ capacity := 1, rate := 0 } : BucketSettings)) ≠
      some (none : Option BucketSettings) := by
  refine ⟨by decide, by decide, by decide⟩

/-- Claim C3 as amended: a bucket payload shorter than 8 bytes makes
readDoubleLE throw, so that single field is dropped (first conjunct) and the
rest of the message decodes exactly as if the entry were absent (second
conjunct); a payload of 8 bytes or more always parses, reading its first 8
bytes as the little-endian double, and a bucket entry created by a
successful parse starts from the default capacity 0 and rate 0 with only the
parsed field set (third conjunct). -/
theorem claim_C3_bucket_payload :
    (∀ (s : Settings) (t : BucketType) (k : BucketKey) (v : List Nat),
        v.length < 8 → parseBucketSetting s t k v = s) ∧
    (∀ (u : OboeSetting) (l1 l2 : List (String × List Nat)) (k : String) (v : List Nat),
        isBucketKey k = true → v.length < 8 →
        parseSettings { u with arguments := l1 ++ (k, v) :: l2 } =
          parseSettings { u with arguments := l1 ++ l2 }) ∧
    (∀ (s : Settings) (t : BucketType) (k : BucketKey) (v : List Nat),
        s.buckets.get t = none → 8 ≤ v.length →
        (parseBucketSetting s t k v).buckets.get t =
          some (BucketSettings.assign {} k (le64 v))) := by
  refine ⟨fun s t k v h => parseBucketSetting_short s t k v h, ?_, ?_⟩
  · intro u l1 l2 k v hk hv
    unfold parseSettings
    rw [settingsBeforeArguments_args u (l1 ++ (k, v) :: l2),
      settingsBeforeArguments_args u (l1 ++ l2)]
    by_cases ht : ttlFalsy u.ttl <;> simp only [ht, if_true, if_false]
    rw [List.foldl_append, List.foldl_append, List.foldl_cons,
      applyArgument_bucket_short _ _ _ hk hv]
  · intro s t k v h hv
    unfold parseBucketSetting readDoubleLE
    simp only [Nat.not_lt.mpr hv, if_false, h, Option.getD_none]
    exact Buckets.get_put _ _ _

theorem claim_C3_bucket_payload_witness :
    parseBucketSetting { sampleRate := 0, flags := 1, buckets := {}, ttl := 60 }
        BucketType.DEFAULT BucketKey.capacity [1, 2, 3] =
      { sampleRate := 0, flags := 1, buckets := {}, ttl := 60 } :=
  claim_C3_bucket_payload.1
    { sampleRate := 0, flags := 1, buckets := {}, ttl := 60 }
    BucketType.DEFAULT BucketKey.capacity [1, 2, 3] (by decide)

/-- Claim C8: over any comma-split flag-name list, an unrecognized name
contributes no bits to the folded bitmask (first conjunct), a name already
present earlier in the list has no additional effect (second conjunct), and
every Settings value produced by parseSettings has the base OK bit set
(third conjunct). -/
theorem claim_C8_flag_bits :
    (∀ (l1 l2 : List String) (n : String), FLAGS_NAMES n = none →
        List.foldl applyFlag Flags.OK (l1 ++ n :: l2) =
          List.foldl applyFlag Flags.OK (l1 ++ l2)) ∧
    (∀ (l1 l2 : List String) (n : String), n ∈ l1 →
        List.foldl applyFlag Flags.OK (l1 ++ n :: l2) =
          List.foldl applyFlag Flags.OK (l1 ++ l2)) ∧
    (∀ (u : OboeSetting) (s : Settings), parseSettings u = some s →
        Flags.OK ||| s.flags = s.flags) := by
  refine ⟨?_, ?_, ?_⟩
  · intro l1 l2 n h
    rw [List.foldl_append, List.foldl_append, List.foldl_cons, applyFlag_eq, h]
    simp
  · intro l1 l2 n h
    rw [List.foldl_append, List.foldl_append, List.foldl_cons, applyFlag_eq]
    congr 1
    rw [foldl_applyFlag_eq l1 Flags.OK, Nat.lor_assoc,
      Nat.lor_comm (List.foldl applyFlag 0 l1) ((FLAGS_NAMES n).getD 0),
      foldl_applyFlag_mem l1 n h]
  · intro u s h
    unfold parseSettings at h
    cases hc : ttlFalsy u.ttl with
    | true => simp [hc] at h
    | false =>
      rw [hc] at h
      simp only [Bool.false_eq_true, if_false, Option.some.injEq] at h
      subst h
      rw [foldl_applyArgument_flags, settingsBeforeArguments_flags,
        foldl_applyFlag_eq, ← Nat.lor_assoc]
      simp

theorem claim_C8_flag_bits_witness :
    List.foldl applyFlag Flags.OK ["SAMPLE_START", "SAMPLE_START"] =
      List.foldl applyFlag Flags.OK ["SAMPLE_START"] :=
  claim_C8_flag_bits.2.1 ["SAMPLE_START"] [] "SAMPLE_START" (by simp)

/-- Claim C9: parseSettings is total.  With the one throwing operation
(readDoubleLE) threaded through the Except monad and its catch made
explicit, decoding any message — arbitrary flags bytes, argument keys and
payloads included — always ends in Except.ok, returning exactly what the
pure parseSettings returns, so no exception reaches the caller. -/
theorem claim_C9_decode_total :
    ∀ u : OboeSetting, parseSettingsE u = Except.ok (parseSettings u) := by
  intro u
  unfold parseSettingsE parseSettings
  cases hc : ttlFalsy u.ttl with
  | true => simp [hc]
  | false =>
    simp only [Bool.false_eq_true, if_false]
    rw [foldlM_except_ok (fun (s : Settings) (kv : String × List Nat) => applyArgumentE s kv.1 kv.2)
      (fun (s : Settings) (kv : String × List Nat) => applyArgument s kv.1 kv.2)
      (fun b a => applyArgumentE_ok b a.1 a.2)]
    rfl

/-- Claim C4: the retry backoff delays along any outcome sequence stay
between 500ms and the 10-minute cap (first conjunct, so with the third the
delays of a failure streak are monotonically non-decreasing), every
retrying branch grows the timeout to min of current times 1.5 and 10
minutes (second conjunct), growth never decreases a reachable timeout
(third conjunct), and any success resets the timeout to 500ms (fourth
conjunct). -/
theorem claim_C4_retry_backoff :
    (∀ os : List Outcome,
        RETRY_MIN_TIMEOUT ≤ stateAfter os ∧ stateAfter os ≤ RETRY_MAX_TIMEOUT) ∧
    (∀ (t : ℚ) (o : Outcome), o.isRetry = true →
        loopStep t o = min (t * MULTIPLIER) RETRY_MAX_TIMEOUT) ∧
    (∀ t : ℚ, RETRY_MIN_TIMEOUT ≤ t → t ≤ RETRY_MAX_TIMEOUT → t ≤ nextRetryTimeout t) ∧
    (∀ (t : ℚ) (ttl : Int), loopStep t (Outcome.success ttl) = RETRY_MIN_TIMEOUT) := by
  refine ⟨?_, ?_, ?_, ?_⟩
  · intro os
    exact foldl_loopStep_bounds os RETRY_MIN_TIMEOUT (le_refl _) retry_min_le_max
  · intro t o ho
    cases o <;> first | rfl | simp [Outcome.isRetry] at ho
  · intro t h1 h2
    exact (nextRetryTimeout_bounds t h1 h2).1
  · intro t ttl
    rfl

theorem claim_C4_retry_backoff_witness :
    RETRY_MIN_TIMEOUT ≤ nextRetryTimeout RETRY_MIN_TIMEOUT :=
  claim_C4_retry_backoff.2.2.1 RETRY_MIN_TIMEOUT (le_refl _) retry_min_le_max

/-- Claim C5: the readiness promise fires exactly once per sampler, at the
first attempt outcome, whatever its kind: over any outcome sequence the
number of promise firings is zero while no attempt has completed and one as
soon as at least one has — never two. -/
theorem claim_C5_ready_fires_once :
    ∀ os : List Outcome, fireCount os = min os.length 1 := by
  intro os
  cases os with
  | nil => rfl
  | cons o t =>
    unfold fireCount fireCountFrom
    rw [readyCalls_eq_one]
    simp [applyResolves, fireCountFrom_settled]

/-- Claim C6, counterexample: with the http scheme attribute present but
equal to the empty string, the claim computes the URL identifier and its
matcher fires, while the code falls back to the kind and name identifier
because JS truthiness rejects the empty string, so no override applies. -/
theorem claim_C6_counterexample :
    localSettings
        { tracingMode := none, triggerTraceEnabled := false,
          transactionSettings := some [{ tracing := true, matcher := fun s => s == "://h/p" }] }
        "n" SpanKind.CLIENT
        { httpScheme := some "", netHostName := some "h", httpTarget := some "/p" } ≠
      claimLocalSettings
        { tracingMode := none, triggerTraceEnabled := false,
          transactionSettings := some [{ tracing := true, matcher := fun s => s == "://h/p" }] }
        "n" SpanKind.CLIENT
        { httpScheme := some "", netHostName := some "h", httpTarget := some "/p" } := by
  decide

/-- Claim C6 as amended: the resolver computes the identifier as
scheme://host+path when the three HTTP attributes are present and
non-empty, and otherwise as kind:name; it applies the first transaction
setting in list order whose matcher accepts that identifier (overriding
tracingMode with ALWAYS or NEVER by the entry effect, ignoring later
entries) and returns the base configuration when nothing matches — i.e. the
code equals the amended-spec resolver, and the trigger mode always stays
the base configured value. -/
theorem claim_C6_local_settings :
    ∀ (cfg : CoreSamplerConfig) (spanName : String) (spanKind : SpanKind)
      (attrs : SpanAttributes),
      localSettings cfg spanName spanKind attrs =
          amendedLocalSettings cfg spanName spanKind attrs ∧
        (localSettings cfg spanName spanKind attrs).triggerMode = cfg.triggerTraceEnabled := by
  intro cfg spanName spanKind attrs
  have h : localSettings cfg spanName spanKind attrs =
      amendedLocalSettings cfg spanName spanKind attrs := by
    unfold localSettings amendedLocalSettings
    cases cfg.transactionSettings with
    | none => rfl
    | some ts => exact applyTransactionSettings_find ts _ _
  refine ⟨h, ?_⟩
  unfold localSettings
  cases cfg.transactionSettings with
  | none => rfl
  | some ts => exact applyTransactionSettings_triggerMode ts _ _

/-- Claim C7: after a successful decode the next fetch is scheduled
max(0, ttl·1000 − 10000·1.5) milliseconds ahead — the TTL in milliseconds
minus the 10-second request deadline times the 1.5 multiplier, clamped at
zero. -/
theorem claim_C7_refresh_schedule :
    ∀ ttl : Int, nextRequestDelay ttl = max 0 ((ttl : ℚ) * 1000 - 10000 * (3 / 2)) := by
  intro ttl
  unfold nextRequestDelay REQUEST_TIMEOUT MULTIPLIER
  norm_num

end SolarWinds
